import Mathlib

/-!
# Verification of `scopedalloc.h` (scoped bump-pointer arenas)

Shallow embedding of the single-header C++ library `scopedalloc.h`.

Modelling conventions:
* Pointers (`char *`) are natural-number addresses; `0` is `nullptr`.
* `size_t` arithmetic is 64-bit: wrap-around is made explicit with `% SIZE_MOD`
  where the C expression can overflow (`aligned_size`); everywhere else the
  source's pointer arithmetic stays inside the attached buffer once the
  `detect_outlive` check has passed, so plain `Nat` arithmetic is exact.
* `throw fflerror(...)` is modelled with `Except AllocError`; the distinct
  error sites of the source map to distinct `AllocError` constructors.
* The heap primitive `posix_memalign` (reached through
  `dynamic_alloc -> alloc_aligned -> overalign_alloc`) is external: it is
  modelled as an oracle `Nat → Option Nat` (`none` = allocation failure,
  which the source turns into a thrown error).  Facts the platform
  guarantees about it (non-null, aligned, disjoint from live buffers) appear
  as hypotheses of the theorems that need them.
* `allocate`'s result records which `return` statement produced the pointer
  (`nullPtr` / `fromBuf` / `fromHeap`); the pointer value itself is exactly
  what the source returns.
-/

deriving instance DecidableEq for Except

namespace scoped_alloc

/-- The `size_t` modulus: the source targets a 64-bit `size_t`. -/
def SIZE_MOD : Nat := 2 ^ 64

/-- Largest `size_t` value. -/
def SIZE_MAX : Nat := SIZE_MOD - 1

/-- Source predicate `is_power2`: `(n > 0) && ((n & (n - 1)) == 0)`. -/
def is_power2 (n : Nat) : Bool :=
  decide (n > 0) && decide (n &&& (n - 1) = 0)

/-- The error sites of the source (`throw fflerror(...)`), one constructor
per distinct failure kind of the spec's taxonomy. -/
inductive AllocError where
  /-- Thrown as `"empty aligned_buf"` / `"no valid buffer attached to arena_interf"` -/
  | invalidState : AllocError
  /-- Thrown as `"invalid allocation: byte_count = 0"` (in `dynamic_arena::alloc`) -/
  | invalidArgument : AllocError
  /-- Thrown as `"posix_memalign(...) failed"` -/
  | allocationFailure : AllocError
  /-- Thrown as `"allocator has outlived arena_interf"` -/
  | lifetimeViolation : AllocError
deriving DecidableEq, Repr

/-- Which `return` of `arena_interf::allocate` produced the result. The
carried address is the returned `char *`. -/
inductive AllocOut where
  | nullPtr : AllocOut
  | fromBuf : Nat → AllocOut
  | fromHeap : Nat → AllocOut
deriving DecidableEq, Repr

/-- The mutable fields of `arena_interf`: `m_buf`, `m_size`, `m_cursor`.
A default-constructed arena has all three zero. -/
structure ArenaState where
  m_buf : Nat
  m_size : Nat
  m_cursor : Nat
deriving DecidableEq, Repr

/-- Source `arena_interf::has_buf`: `m_buf && m_size`. -/
def has_buf (st : ArenaState) : Bool :=
  decide (st.m_buf ≠ 0) && decide (st.m_size ≠ 0)

/-- Source `arena_interf::get_buf`: `{m_buf, m_size}` (no check). -/
def get_buf (st : ArenaState) : Nat × Nat :=
  (st.m_buf, st.m_size)

/-- Source `arena_interf::get_buf_ex`: throws when no valid buffer is attached. -/
def get_buf_ex (st : ArenaState) : Except AllocError (Nat × Nat) :=
  if has_buf st then .ok (get_buf st) else .error .invalidState

/-- Source `arena_interf::in_buf`: `buf.buf <= p && p <= buf.buf + buf.size`
(note: inclusive at both ends). -/
def in_buf (st : ArenaState) (p : Nat) : Except AllocError Bool :=
  match get_buf_ex st with
  | .error e => .error e
  | .ok (b, s) => .ok (decide (b ≤ p) && decide (p ≤ b + s))

/-- Source `arena_interf::detect_outlive` with `SCOPED_ALLOC_THROW_OVERLIVE`
defined: throws unless the cursor lies inside the attached buffer. -/
def detect_outlive (st : ArenaState) : Except AllocError Unit :=
  match in_buf st st.m_cursor with
  | .error e => .error e
  | .ok true => .ok ()
  | .ok false => .error .lifetimeViolation

/-- Source `arena_interf::used`: `m_cursor - get_buf_ex().buf` (as `size_t`; the
states reached through the interface keep `m_buf ≤ m_cursor`, where `Nat`
subtraction is exact). -/
def used (st : ArenaState) : Except AllocError Nat :=
  match get_buf_ex st with
  | .error e => .error e
  | .ok (b, _) => .ok (st.m_cursor - b)

/-- Source `arena_interf::reset`: `m_cursor = get_buf_ex().buf`. -/
def reset (st : ArenaState) : Except AllocError ArenaState :=
  match get_buf_ex st with
  | .error e => .error e
  | .ok (b, _) => .ok { st with m_cursor := b }

/-- Source `arena_interf::aligned_size`:
`(byte_count + (Alignment - 1)) & ~(Alignment - 1)` in `size_t` arithmetic.
The sum wraps modulo `2^64`, and for `1 ≤ Alignment ≤ 2^64` the complement
mask `~(Alignment - 1)` is `SIZE_MOD - Alignment`. -/
def aligned_size (Alignment byte_count : Nat) : Nat :=
  ((byte_count + (Alignment - 1)) % SIZE_MOD) &&& (SIZE_MOD - Alignment)

/-- Source `arena_interf::set_buf` (the runtime part; the `static_assert` on the
buffer's alignment is compile-time): throws on a null pointer or zero size,
otherwise attaches the buffer and puts the cursor at its start. -/
def set_buf (st : ArenaState) (b s : Nat) : Except AllocError ArenaState :=
  if b ≠ 0 ∧ s ≠ 0 then
    .ok { st with m_cursor := b, m_buf := b, m_size := s }
  else
    .error .invalidState

/-- Source `arena_interf::allocate<RequestAlignment>` (the `static_assert`
`RequestAlignment <= Alignment` is compile-time). `oracle` models the heap
primitive reached through `dynamic_alloc`. -/
def allocate (Alignment : Nat) (oracle : Nat → Option Nat)
    (st : ArenaState) (byte_count : Nat) :
    Except AllocError (AllocOut × ArenaState) :=
  match detect_outlive st with
  | .error e => .error e
  | .ok _ =>
    if byte_count = 0 then
      .ok (.nullPtr, st)
    else
      match get_buf_ex st with
      | .error e => .error e
      | .ok (b, s) =>
        let byte_count_aligned := aligned_size Alignment byte_count
        if byte_count_aligned ≤ b + s - st.m_cursor then
          .ok (.fromBuf st.m_cursor,
               { st with m_cursor := st.m_cursor + byte_count_aligned })
        else
          match oracle byte_count with
          | some p => .ok (.fromHeap p, st)
          | none => .error .allocationFailure

/-- Source `arena_interf::deallocate`. The source marks it `noexcept` yet its
`detect_outlive` / `in_buf` calls can throw; a thrown error here models the
resulting `std::terminate`. Releasing a fallback pointer
(`free_aligned(p)`) does not change the arena's fields. -/
def deallocate (Alignment : Nat) (st : ArenaState) (p byte_count : Nat) :
    Except AllocError ArenaState :=
  match detect_outlive st with
  | .error e => .error e
  | .ok _ =>
    match in_buf st p with
    | .error e => .error e
    | .ok true =>
      if p + aligned_size Alignment byte_count = st.m_cursor then
        .ok { st with m_cursor := p }
      else
        .ok st
    | .ok false => .ok st

/-- Iterates `arena_interf::allocate` over a list of requests, collecting
each call's result. -/
def allocate_seq (Alignment : Nat) (oracle : Nat → Option Nat) :
    ArenaState → List Nat → Except AllocError (List AllocOut × ArenaState)
  | st, [] => .ok ([], st)
  | st, bc :: rest =>
    match allocate Alignment oracle st bc with
    | .error e => .error e
    | .ok (out, st2) =>
      match allocate_seq Alignment oracle st2 rest with
      | .error e => .error e
      | .ok (outs, st3) => .ok (out :: outs, st3)

/-- Constructor of `fixed_arena<ByteCount, Alignment>`: attaches the inline
storage (address `b`, the `alignas(Alignment)` member) of size
`byte_count = ByteCount` to a default-constructed arena. -/
def fixed_arena_init (b byte_count : Nat) : Except AllocError ArenaState :=
  set_buf ⟨0, 0, 0⟩ b byte_count

/-- One call to a heap primitive, for tracing `dynamic_arena::alloc`. -/
inductive HeapEvent where
  /-- Event: `free_aligned(p)` actually released `p` (it is a no-op on null). -/
  | freed : Nat → HeapEvent
  /-- Event: `alloc_aligned(byte_count)` returned the fresh block `p`. -/
  | allocated : (p byte_count : Nat) → HeapEvent
deriving DecidableEq, Repr

/-- Outcome of `dynamic_arena::alloc`: the arena fields after the call
(unchanged when it throws), the heap calls it performed in order, and the
error it threw, if any. -/
structure DynAllocResult where
  state : ArenaState
  events : List HeapEvent
  err : Option AllocError
deriving DecidableEq, Repr

/-- Source `dynamic_arena::alloc(byte_count)`: rejects `byte_count == 0`, frees the
currently attached buffer if any, then attaches a fresh heap block from
`alloc_aligned` (the `oracle`; `none` models `posix_memalign` failure,
which the source turns into a thrown error before `set_buf` runs). -/
def dyn_arena_alloc (oracle : Nat → Option Nat)
    (st : ArenaState) (byte_count : Nat) : DynAllocResult :=
  if byte_count = 0 then
    ⟨st, [], some .invalidArgument⟩
  else
    let evs := if has_buf st then [HeapEvent.freed st.m_buf] else []
    match oracle byte_count with
    | none => ⟨st, evs, some .allocationFailure⟩
    | some p =>
      match set_buf st p byte_count with
      | .ok st2 => ⟨st2, evs ++ [HeapEvent.allocated p byte_count], none⟩
      | .error e => ⟨st, evs ++ [HeapEvent.allocated p byte_count], some e⟩

/-- The comparison-relevant identity of an `allocator<T, Alignment>` handle:
the element type only through `sizeof(T)` (it does not take part in
comparison), the `Alignment` template argument, and the identity (address)
of the `arena_interf` object the handle references. -/
structure alloc_handle where
  elemSize : Nat
  alignment : Nat
  arenaId : Nat
deriving DecidableEq, Repr

/-- Source `allocator::operator==`: `Alignment == A2 && &m_arena == &parm.m_arena`. -/
def alloc_handle_eq (h1 h2 : alloc_handle) : Bool :=
  (h1.alignment == h2.alignment) && (h1.arenaId == h2.arenaId)

/-- Source `allocator::operator!=`: `!(*this == parm)`. -/
def alloc_handle_ne (h1 h2 : alloc_handle) : Bool :=
  !(alloc_handle_eq h1 h2)

/-- Source `allocator<T, Alignment>::allocate(n)`:
`m_arena.allocate<alignof(T)>(n * sizeof(T))` (`s` is `sizeof(T)`). -/
def allocator_allocate (Alignment s : Nat) (oracle : Nat → Option Nat)
    (st : ArenaState) (n : Nat) : Except AllocError (AllocOut × ArenaState) :=
  allocate Alignment oracle st (n * s)

/-- A state the public interface can be in: a buffer is attached and the
cursor lies within it (what `detect_outlive` checks). -/
def valid_state (st : ArenaState) : Prop :=
  st.m_buf ≠ 0 ∧ st.m_size ≠ 0 ∧
    st.m_buf ≤ st.m_cursor ∧ st.m_cursor ≤ st.m_buf + st.m_size

instance (st : ArenaState) : Decidable (valid_state st) := by
  unfold valid_state; infer_instance

/-- The spec's words, not the source's expression: "the requested byte
count rounded up to the nearest multiple of the arena's alignment"
(exact arithmetic, no wrap-around).  Compared against `aligned_size`. -/
def round_up_to_multiple (Alignment byte_count : Nat) : Nat :=
  (byte_count + (Alignment - 1)) / Alignment * Alignment

/-- Predicate: `m` is the smallest multiple of `Alignment` that is `≥ b`. -/
def is_least_multiple_ge (Alignment b m : Nat) : Prop :=
  Alignment ∣ m ∧ b ≤ m ∧ ∀ m2, Alignment ∣ m2 → b ≤ m2 → m ≤ m2

/-- Size and fill level of the dynamic sequence inside `svobuf`, counted in
elements. -/
structure VecState where
  cap : Nat
  len : Nat
deriving DecidableEq, Repr

/-- Modelled from the spec: the dynamic sequence container (`std::vector`,
an excluded external collaborator) is assumed to satisfy the minimal
contract the spec states for it — `reserve(n)` obtains storage for `n`
elements through `allocator::allocate` when `n` exceeds the current
capacity (and does nothing otherwise).  The third component collects the
arena allocations performed. -/
def vec_reserve (Alignment s : Nat) (oracle : Nat → Option Nat)
    (st : ArenaState) (v : VecState) (n : Nat) :
    Except AllocError (ArenaState × VecState × List AllocOut) :=
  if n ≤ v.cap then .ok (st, v, [])
  else
    match allocator_allocate Alignment s oracle st n with
    | .error e => .error e
    | .ok (out, st2) => .ok (st2, { v with cap := n }, [out])

/-- Modelled from the spec: one insertion into the dynamic sequence.  It
allocates through the bound allocator only when the current capacity is
exhausted (growing to `max 1 (2 * cap)`); below capacity it touches no
allocator at all. -/
def vec_push_back (Alignment s : Nat) (oracle : Nat → Option Nat)
    (st : ArenaState) (v : VecState) :
    Except AllocError (ArenaState × VecState × List AllocOut) :=
  if v.len < v.cap then .ok (st, { v with len := v.len + 1 }, [])
  else
    match vec_reserve Alignment s oracle st v (max 1 (2 * v.cap)) with
    | .error e => .error e
    | .ok (st2, v2, outs) => .ok (st2, { v2 with len := v2.len + 1 }, outs)

/-- Runs `n` sequential insertions, collecting every arena allocation made. -/
def vec_push_n (Alignment s : Nat) (oracle : Nat → Option Nat) :
    ArenaState → VecState → Nat →
    Except AllocError (ArenaState × VecState × List AllocOut)
  | st, v, 0 => .ok (st, v, [])
  | st, v, n + 1 =>
    match vec_push_back Alignment s oracle st v with
    | .error e => .error e
    | .ok (st2, v2, outs) =>
      match vec_push_n Alignment s oracle st2 v2 n with
      | .error e => .error e
      | .ok (st3, v3, outs2) => .ok (st3, v3, outs ++ outs2)

/-- Constructor of `svobuf<T, N>`: a `fixed_arena<N * sizeof(T), alignof(T)>`
(inline storage at address `b`), an empty sequence bound to it, then
`c.reserve(N)` followed by the source's `c.capacity() > N` sanity check
(which throws when the initial buffer was allocated dynamically).
`s` is `sizeof(T)`, `Alignment` is `alignof(T)`. -/
def svobuf_init (Alignment s N b : Nat) (oracle : Nat → Option Nat) :
    Except AllocError (ArenaState × VecState × List AllocOut) :=
  match fixed_arena_init b (N * s) with
  | .error e => .error e
  | .ok st =>
    match vec_reserve Alignment s oracle st ⟨0, 0⟩ N with
    | .error e => .error e
    | .ok (st2, v, outs) =>
      if N < v.cap then .error .invalidState else .ok (st2, v, outs)

end scoped_alloc

/-! ## Arithmetic of `aligned_size` -/

namespace scoped_alloc

/-- Clearing the low `k` bits of a 64-bit value with the mask
`2^64 - 2^k` rounds it down to a multiple of `2^k`. -/
theorem land_low_bits_cleared (k x : Nat) (hk : k ≤ 64) (hx : x < 2 ^ 64) :
    x &&& (2 ^ 64 - 2 ^ k) = x / 2 ^ k * 2 ^ k := by
  have hmask : 2 ^ 64 - 2 ^ k = 2 ^ k * (2 ^ (64 - k) - 1) := by
    rw [Nat.mul_sub_left_distrib, Nat.mul_one, ← Nat.pow_add,
      Nat.add_sub_cancel' hk]
  apply Nat.eq_of_testBit_eq
  intro i
  rw [Nat.testBit_land, hmask, Nat.mul_comm (x / 2 ^ k) (2 ^ k),
    Nat.testBit_mul_pow_two, Nat.testBit_mul_pow_two,
    Nat.testBit_two_pow_sub_one]
  by_cases hik : k ≤ i
  · have hdiv : x / 2 ^ k = x >>> k := (Nat.shiftRight_eq_div_pow x k).symm
    rw [hdiv, Nat.testBit_shiftRight, Nat.add_sub_cancel' hik]
    by_cases hi64 : i < 64
    · have h1 : i - k < 64 - k := by omega
      simp [ge_iff_le, hik, h1]
    · have hxb : x.testBit i = false := by
        apply Nat.testBit_lt_two_pow
        exact lt_of_lt_of_le hx (Nat.pow_le_pow_right (by norm_num) (by omega))
      simp [hxb]
  · simp [ge_iff_le, hik]

/-- Lemma: `aligned_size` is division-rounding on the (possibly wrapped) sum. -/
theorem aligned_size_eq_div_mul (k b : Nat) (hk : k ≤ 64) :
    aligned_size (2 ^ k) b =
      ((b + (2 ^ k - 1)) % SIZE_MOD) / 2 ^ k * 2 ^ k := by
  unfold aligned_size SIZE_MOD
  exact land_low_bits_cleared k _ hk (Nat.mod_lt _ (by positivity))

/-- Below the overflow threshold, `aligned_size` is exact round-up. -/
theorem aligned_size_of_no_wrap (k b : Nat) (hk : k ≤ 64)
    (hb : b + (2 ^ k - 1) < SIZE_MOD) :
    aligned_size (2 ^ k) b = (b + (2 ^ k - 1)) / 2 ^ k * 2 ^ k := by
  rw [aligned_size_eq_div_mul k b hk, Nat.mod_eq_of_lt hb]

theorem aligned_size_dvd (k b : Nat) (hk : k ≤ 64) :
    2 ^ k ∣ aligned_size (2 ^ k) b := by
  rw [aligned_size_eq_div_mul k b hk]
  exact Dvd.intro_left _ rfl

theorem aligned_size_zero (k : Nat) (hk : k ≤ 64) :
    aligned_size (2 ^ k) 0 = 0 := by
  have h1 : 0 < 2 ^ k := by positivity
  have h2 : 2 ^ k ≤ 2 ^ 64 := Nat.pow_le_pow_right (by norm_num) hk
  rw [aligned_size_of_no_wrap k 0 hk (by unfold SIZE_MOD; omega)]
  rw [Nat.zero_add, Nat.div_eq_of_lt (by omega), Nat.zero_mul]

theorem le_aligned_size_of_no_wrap (k b : Nat) (hk : k ≤ 64)
    (hb : b + (2 ^ k - 1) < SIZE_MOD) :
    b ≤ aligned_size (2 ^ k) b := by
  rw [aligned_size_of_no_wrap k b hk hb]
  have h1 := Nat.div_add_mod (b + (2 ^ k - 1)) (2 ^ k)
  have h2 := Nat.mod_lt (b + (2 ^ k - 1)) (y := 2 ^ k) (by positivity)
  have h3 : 0 < 2 ^ k := by positivity
  generalize (b + (2 ^ k - 1)) / 2 ^ k = d at *
  generalize (b + (2 ^ k - 1)) % 2 ^ k = m at *
  have h4 : d * 2 ^ k = 2 ^ k * d := Nat.mul_comm _ _
  generalize 2 ^ k * d = e at *
  omega

theorem aligned_size_of_dvd (k b : Nat) (hk : k ≤ 64)
    (hdvd : 2 ^ k ∣ b) (hb : b + (2 ^ k - 1) < SIZE_MOD) :
    aligned_size (2 ^ k) b = b := by
  rw [aligned_size_of_no_wrap k b hk hb]
  obtain ⟨t, rfl⟩ := hdvd
  have h3 : 0 < 2 ^ k := by positivity
  rw [Nat.mul_add_div h3, Nat.div_eq_of_lt (by omega), Nat.add_zero,
    Nat.mul_comm]

end scoped_alloc

namespace scoped_alloc

theorem get_buf_ex_ok (st : ArenaState) (hv : valid_state st) :
    get_buf_ex st = .ok (st.m_buf, st.m_size) := by
  obtain ⟨h1, h2, h3, h4⟩ := hv
  simp [get_buf_ex, has_buf, get_buf, h1, h2]

theorem detect_outlive_ok (st : ArenaState) (hv : valid_state st) :
    detect_outlive st = .ok () := by
  obtain ⟨h1, h2, h3, h4⟩ := hv
  simp [detect_outlive, in_buf, get_buf_ex, has_buf, get_buf, h1, h2, h3, h4]

theorem allocate_bump (Alignment : Nat) (oracle : Nat → Option Nat)
    (st : ArenaState) (bc : Nat) (hv : valid_state st) (hbc : bc ≠ 0)
    (hfit : aligned_size Alignment bc ≤ st.m_buf + st.m_size - st.m_cursor) :
    allocate Alignment oracle st bc =
      .ok (.fromBuf st.m_cursor,
           { st with m_cursor := st.m_cursor + aligned_size Alignment bc }) := by
  rw [allocate, detect_outlive_ok st hv, get_buf_ex_ok st hv]
  simp [hbc, hfit]

theorem allocate_fallback (Alignment : Nat) (oracle : Nat → Option Nat)
    (st : ArenaState) (bc p : Nat) (hv : valid_state st) (hbc : bc ≠ 0)
    (hnofit : ¬ aligned_size Alignment bc ≤ st.m_buf + st.m_size - st.m_cursor)
    (hor : oracle bc = some p) :
    allocate Alignment oracle st bc = .ok (.fromHeap p, st) := by
  rw [allocate, detect_outlive_ok st hv, get_buf_ex_ok st hv]
  simp [hbc, hnofit, hor]

theorem deallocate_top (Alignment : Nat) (st : ArenaState) (p bc : Nat)
    (hv : valid_state st) (hp1 : st.m_buf ≤ p) (hp2 : p ≤ st.m_buf + st.m_size)
    (htop : p + aligned_size Alignment bc = st.m_cursor) :
    deallocate Alignment st p bc = .ok { st with m_cursor := p } := by
  rw [deallocate, detect_outlive_ok st hv, in_buf, get_buf_ex_ok st hv]
  simp [hp1, hp2, htop]

theorem deallocate_nontop (Alignment : Nat) (st : ArenaState) (p bc : Nat)
    (hv : valid_state st) (hp1 : st.m_buf ≤ p) (hp2 : p ≤ st.m_buf + st.m_size)
    (htop : p + aligned_size Alignment bc ≠ st.m_cursor) :
    deallocate Alignment st p bc = .ok st := by
  rw [deallocate, detect_outlive_ok st hv, in_buf, get_buf_ex_ok st hv]
  simp [hp1, hp2, htop]

theorem deallocate_outside (Alignment : Nat) (st : ArenaState) (p bc : Nat)
    (hv : valid_state st) (hp : ¬ (st.m_buf ≤ p ∧ p ≤ st.m_buf + st.m_size)) :
    deallocate Alignment st p bc = .ok st := by
  rw [deallocate, detect_outlive_ok st hv, in_buf, get_buf_ex_ok st hv]
  rcases Decidable.not_and_iff_or_not.mp hp with h | h <;> simp [h]

end scoped_alloc

namespace scoped_alloc

/-- C2: on a 64-byte `fixed_arena` at alignment 8 (inline storage at any
non-null 8-aligned address `b`), `allocate(10)` returns the buffer start
and advances `used()` to 16; the subsequent `allocate(60)` rounds to 64,
exceeds the 48 remaining bytes, and is served by the fallback heap
primitive, whose result lies outside `[b, b + 64)`. -/
theorem fixed_arena_64_scenario (b p : Nat) (oracle : Nat → Option Nat)
    (hb : b ≠ 0) (hb8 : b % 8 = 0)
    (hor : oracle 60 = some p) (hout : p < b ∨ b + 64 ≤ p) :
    fixed_arena_init b 64 = .ok ⟨b, 64, b⟩ ∧
    allocate 8 oracle ⟨b, 64, b⟩ 10 = .ok (.fromBuf b, ⟨b, 64, b + 16⟩) ∧
    used ⟨b, 64, b + 16⟩ = .ok 16 ∧
    aligned_size 8 60 = 64 ∧
    b + 64 - (b + 16) = 48 ∧
    allocate 8 oracle ⟨b, 64, b + 16⟩ 60 = .ok (.fromHeap p, ⟨b, 64, b + 16⟩) ∧
    ¬(b ≤ p ∧ p < b + 64) := by
  have hv1 : valid_state ⟨b, 64, b⟩ := by
    show b ≠ 0 ∧ (64 : Nat) ≠ 0 ∧ b ≤ b ∧ b ≤ b + 64
    omega
  have hv2 : valid_state ⟨b, 64, b + 16⟩ := by
    show b ≠ 0 ∧ (64 : Nat) ≠ 0 ∧ b ≤ b + 16 ∧ b + 16 ≤ b + 64
    omega
  have ha10 : aligned_size 8 10 = 16 := by decide
  have ha60 : aligned_size 8 60 = 64 := by decide
  have hfit1 : aligned_size 8 10 ≤
      (ArenaState.mk b 64 b).m_buf + (ArenaState.mk b 64 b).m_size -
        (ArenaState.mk b 64 b).m_cursor := by
    show aligned_size 8 10 ≤ b + 64 - b
    rw [ha10]; omega
  have hnofit : ¬ aligned_size 8 60 ≤
      (ArenaState.mk b 64 (b + 16)).m_buf + (ArenaState.mk b 64 (b + 16)).m_size -
        (ArenaState.mk b 64 (b + 16)).m_cursor := by
    show ¬ aligned_size 8 60 ≤ b + 64 - (b + 16)
    rw [ha60]; omega
  refine ⟨?_, ?_, ?_, ha60, by omega, ?_, by omega⟩
  · simp [fixed_arena_init, set_buf, hb]
  · rw [allocate_bump 8 oracle ⟨b, 64, b⟩ 10 hv1 (by omega) hfit1]
    simp [ha10]
  · simp [used, get_buf_ex_ok _ hv2]
  · exact allocate_fallback 8 oracle ⟨b, 64, b + 16⟩ 60 p hv2 (by omega) hnofit hor

end scoped_alloc

namespace scoped_alloc

/-- C3: on a valid arena, deallocating the exact top block
(`p + aligned_size(bc) == m_cursor`, `p` in the buffer) moves the cursor
back to `p`; deallocating any other in-buffer pointer changes nothing; and
a bump allocation followed by deallocation of the returned pointer restores
the state — hence `used()` — to its pre-allocation value. -/
theorem deallocate_lifo (Alignment : Nat) (st : ArenaState)
    (hv : valid_state st) :
    (∀ p bc, st.m_buf ≤ p → p ≤ st.m_buf + st.m_size →
      p + aligned_size Alignment bc = st.m_cursor →
      deallocate Alignment st p bc = .ok { st with m_cursor := p }) ∧
    (∀ p bc, st.m_buf ≤ p → p ≤ st.m_buf + st.m_size →
      p + aligned_size Alignment bc ≠ st.m_cursor →
      deallocate Alignment st p bc = .ok st) ∧
    (∀ (oracle : Nat → Option Nat) (bc : Nat), bc ≠ 0 →
      aligned_size Alignment bc ≤ st.m_buf + st.m_size - st.m_cursor →
      allocate Alignment oracle st bc =
        .ok (.fromBuf st.m_cursor,
             { st with m_cursor := st.m_cursor + aligned_size Alignment bc }) ∧
      deallocate Alignment
        { st with m_cursor := st.m_cursor + aligned_size Alignment bc }
        st.m_cursor bc = .ok st ∧
      used st = .ok (st.m_cursor - st.m_buf)) := by
  obtain ⟨h1, h2, h3, h4⟩ := hv
  refine ⟨fun p bc hp1 hp2 htop =>
      deallocate_top _ _ _ _ ⟨h1, h2, h3, h4⟩ hp1 hp2 htop,
    fun p bc hp1 hp2 htop =>
      deallocate_nontop _ _ _ _ ⟨h1, h2, h3, h4⟩ hp1 hp2 htop,
    fun oracle bc hbc hfit => ?_⟩
  have hv2 : valid_state
      { st with m_cursor := st.m_cursor + aligned_size Alignment bc } := by
    unfold valid_state
    dsimp
    exact ⟨h1, h2, by omega, by omega⟩
  refine ⟨allocate_bump _ _ _ _ ⟨h1, h2, h3, h4⟩ hbc hfit, ?_, ?_⟩
  · have hrestore := deallocate_top Alignment
      { st with m_cursor := st.m_cursor + aligned_size Alignment bc }
      st.m_cursor bc hv2 (by dsimp; exact h3) (by dsimp; omega) (by dsimp)
    simpa using hrestore
  · simp [used, get_buf_ex_ok st ⟨h1, h2, h3, h4⟩]

/-- C4 (amended): on any state that passes the outlive check (a buffer is
attached and the cursor is inside it), `deallocate` reports no error for
any pointer and byte count. -/
theorem deallocate_no_error (Alignment : Nat) (st : ArenaState) (p bc : Nat)
    (hv : valid_state st) : ∃ st2, deallocate Alignment st p bc = .ok st2 := by
  by_cases hin : st.m_buf ≤ p ∧ p ≤ st.m_buf + st.m_size
  · by_cases htop : p + aligned_size Alignment bc = st.m_cursor
    · exact ⟨_, deallocate_top _ _ _ _ hv hin.1 hin.2 htop⟩
    · exact ⟨_, deallocate_nontop _ _ _ _ hv hin.1 hin.2 htop⟩
  · exact ⟨_, deallocate_outside _ _ _ _ hv hin⟩

theorem deallocate_no_error_witness :
    deallocate 16 ⟨32, 64, 48⟩ 1000 4 = .ok ⟨32, 64, 48⟩ := by
  obtain ⟨st2, h⟩ := deallocate_no_error 16 ⟨32, 64, 48⟩ 1000 4 (by decide)
  have hconc : deallocate 16 ⟨32, 64, 48⟩ 1000 4 = .ok ⟨32, 64, 48⟩ := rfl
  have h2 := hconc.symm.trans h
  cases h2
  exact h

/-- C4 counterexample: on an arena with no attached buffer (a
default-constructed `dynamic_arena`), `deallocate` reports an error — the
`get_buf_ex` call inside its outlive check throws (and, the function being
`noexcept`, the process is terminated). -/
theorem deallocate_error_without_buffer :
    deallocate 16 ⟨0, 0, 0⟩ 0 0 = .error .invalidState := by decide

/-- C7: handle equality is identity of the referenced arena plus equality
of the alignment parameter; the element type plays no role; two handles on
distinct arena objects are unequal no matter how equal the arena states
are; `!=` is the negation of `==`. -/
theorem handle_eq_identity :
    (∀ h1 h2 : alloc_handle,
      alloc_handle_eq h1 h2 = true ↔
        h1.alignment = h2.alignment ∧ h1.arenaId = h2.arenaId) ∧
    (∀ h1 h2 : alloc_handle, alloc_handle_ne h1 h2 = !alloc_handle_eq h1 h2) ∧
    (∀ e1 e2 a i, alloc_handle_eq ⟨e1, a, i⟩ ⟨e2, a, i⟩ = true) ∧
    (∀ (arenas : Nat → ArenaState) e1 e2 a i j,
      arenas i = arenas j → i ≠ j →
      alloc_handle_eq ⟨e1, a, i⟩ ⟨e2, a, j⟩ = false) := by
  refine ⟨fun h1 h2 => ?_, fun h1 h2 => rfl, fun e1 e2 a i => ?_,
    fun arenas e1 e2 a i j _ hij => ?_⟩
  · simp [alloc_handle_eq]
  · simp [alloc_handle_eq]
  · simp [alloc_handle_eq, hij]

theorem handle_eq_identity_witness :
    alloc_handle_eq ⟨4, 16, 7⟩ ⟨8, 16, 7⟩ = true ∧
      alloc_handle_eq ⟨4, 16, 0⟩ ⟨8, 16, 1⟩ = false :=
  ⟨handle_eq_identity.2.2.1 4 8 16 7,
   handle_eq_identity.2.2.2 (fun _ => ⟨1, 1, 1⟩) 4 8 16 0 1 rfl (by decide)⟩

end scoped_alloc

namespace scoped_alloc

theorem fixed_arena_64_scenario_witness :
    fixed_arena_init 8 64 = .ok ⟨8, 64, 8⟩ ∧
    allocate 8 (fun _ => some 1024) ⟨8, 64, 8⟩ 10 =
      .ok (.fromBuf 8, ⟨8, 64, 8 + 16⟩) ∧
    used ⟨8, 64, 8 + 16⟩ = .ok 16 ∧
    aligned_size 8 60 = 64 ∧
    8 + 64 - (8 + 16) = 48 ∧
    allocate 8 (fun _ => some 1024) ⟨8, 64, 8 + 16⟩ 60 =
      .ok (.fromHeap 1024, ⟨8, 64, 8 + 16⟩) ∧
    ¬(8 ≤ 1024 ∧ 1024 < 8 + 64) :=
  fixed_arena_64_scenario 8 1024 (fun _ => some 1024)
    (by decide) (by decide) rfl (by decide)

/-- Bump-only runs of `allocate`: starting anywhere in a valid arena, if
the rounded sizes of all requests fit in the remaining capacity, every
call is served from the buffer (never from the heap) and the cursor
advances by exactly the sum of the rounded sizes. -/
theorem allocate_seq_bump (k : Nat) (oracle : Nat → Option Nat)
    (hk : k ≤ 64) :
    ∀ (reqs : List Nat) (b s c : Nat), b ≠ 0 → s ≠ 0 → b ≤ c →
    c - b + (reqs.map (aligned_size (2 ^ k))).sum ≤ s →
    ∃ outs, allocate_seq (2 ^ k) oracle ⟨b, s, c⟩ reqs =
        .ok (outs, ⟨b, s, c + (reqs.map (aligned_size (2 ^ k))).sum⟩) ∧
      ∀ o ∈ outs, ∀ p, o ≠ AllocOut.fromHeap p := by
  intro reqs
  induction reqs with
  | nil =>
    intro b s c hb hs hbc hfit
    exact ⟨[], by simp [allocate_seq], by simp⟩
  | cons bc rest ih =>
    intro b s c hb hs hbc hfit
    simp only [List.map_cons, List.sum_cons] at hfit
    have hv : valid_state ⟨b, s, c⟩ := by
      unfold valid_state
      dsimp
      exact ⟨hb, hs, hbc, by omega⟩
    by_cases hbc0 : bc = 0
    · subst hbc0
      have h0 := aligned_size_zero k hk
      rw [h0] at hfit
      obtain ⟨outs, hrun, hnoheap⟩ := ih b s c hb hs hbc (by omega)
      have halloc : allocate (2 ^ k) oracle ⟨b, s, c⟩ 0 =
          .ok (.nullPtr, ⟨b, s, c⟩) := by
        rw [allocate, detect_outlive_ok _ hv]
        rfl
      refine ⟨.nullPtr :: outs, ?_, ?_⟩
      · rw [allocate_seq, halloc]
        dsimp
        rw [hrun]
        simp [h0]
      · intro o ho pp
        rcases List.mem_cons.mp ho with rfl | ho
        · simp
        · exact hnoheap _ ho pp
    · have hfit1 : aligned_size (2 ^ k) bc ≤
          (ArenaState.mk b s c).m_buf + (ArenaState.mk b s c).m_size -
            (ArenaState.mk b s c).m_cursor := by
        dsimp
        omega
      have hstep := allocate_bump (2 ^ k) oracle ⟨b, s, c⟩ bc hv hbc0 hfit1
      obtain ⟨outs, hrun, hnoheap⟩ :=
        ih b s (c + aligned_size (2 ^ k) bc) hb hs (by omega) (by omega)
      refine ⟨.fromBuf c :: outs, ?_, ?_⟩
      · rw [allocate_seq, hstep]
        dsimp
        rw [hrun]
        simp [Nat.add_assoc]
      · intro o ho pp
        rcases List.mem_cons.mp ho with rfl | ho
        · simp
        · exact hnoheap _ ho pp

end scoped_alloc

namespace scoped_alloc

/-- C1 (amended): from a freshly attached arena, for every sequence of
`allocate` calls that are all served from the attached buffer (their
rounded sizes fit into the capacity), `used()` equals the sum of the
requested byte counts rounded up to the arena's alignment, and that sum
never exceeds the buffer's size. -/
theorem used_eq_sum_of_rounded (k : Nat) (oracle : Nat → Option Nat)
    (b s : Nat) (reqs : List Nat) (hk : k ≤ 64) (hb : b ≠ 0) (hs : s ≠ 0)
    (hnw : ∀ bc ∈ reqs, bc + (2 ^ k - 1) < SIZE_MOD)
    (hfit : (reqs.map (round_up_to_multiple (2 ^ k))).sum ≤ s) :
    ∃ outs st2,
      allocate_seq (2 ^ k) oracle ⟨b, s, b⟩ reqs = .ok (outs, st2) ∧
      (∀ o ∈ outs, ∀ p, o ≠ AllocOut.fromHeap p) ∧
      used st2 = .ok ((reqs.map (round_up_to_multiple (2 ^ k))).sum) ∧
      (reqs.map (round_up_to_multiple (2 ^ k))).sum ≤ s := by
  have hmap : reqs.map (round_up_to_multiple (2 ^ k)) =
      reqs.map (aligned_size (2 ^ k)) := by
    apply List.map_congr_left
    intro bc hbc
    rw [aligned_size_of_no_wrap k bc hk (hnw bc hbc)]
    rfl
  rw [hmap] at hfit ⊢
  obtain ⟨outs, hrun, hnoheap⟩ :=
    allocate_seq_bump k oracle hk reqs b s b hb hs (Nat.le_refl b)
      (by omega)
  have hv2 : valid_state ⟨b, s, b + (reqs.map (aligned_size (2 ^ k))).sum⟩ := by
    unfold valid_state
    dsimp
    exact ⟨hb, hs, by omega, by omega⟩
  refine ⟨outs, _, hrun, hnoheap, ?_, hfit⟩
  simp [used, get_buf_ex_ok _ hv2]

/-- C1 counterexample: two `allocate(60)` calls on a fresh 64-byte arena at
alignment 8 both succeed (the second through the heap fallback), yet
`used()` is 64, not the 128 the literal claim demands. -/
theorem used_ne_sum_on_fallback :
    allocate_seq 8 (fun _ => some 1024) ⟨8, 64, 8⟩ [60, 60] =
      .ok ([.fromBuf 8, .fromHeap 1024], ⟨8, 64, 72⟩) ∧
    used ⟨8, 64, 72⟩ = .ok 64 ∧
    ([60, 60].map (round_up_to_multiple 8)).sum = 128 ∧
    (64 : Nat) ≠ 128 := by
  refine ⟨rfl, rfl, rfl, by decide⟩

theorem used_eq_sum_of_rounded_witness :
    allocate_seq (2 ^ 3) (fun _ => some 1024) ⟨8, 64, 8⟩ [10, 20] =
      .ok ([.fromBuf 8, .fromBuf 24], ⟨8, 64, 48⟩) ∧
    used ⟨8, 64, 48⟩ = .ok 40 := by
  obtain ⟨outs, st2, hrun, hnoheap, hused, hle⟩ :=
    used_eq_sum_of_rounded 3 (fun _ => some 1024) 8 64 [10, 20]
      (by decide) (by decide) (by decide) (by decide) (by decide)
  have hconc : allocate_seq (2 ^ 3) (fun _ => some 1024) ⟨8, 64, 8⟩ [10, 20] =
      .ok ([.fromBuf 8, .fromBuf 24], ⟨8, 64, 48⟩) := rfl
  have h2 := hconc.symm.trans hrun
  cases h2
  exact ⟨hconc, hused⟩

/-- C6: `dynamic_arena::alloc` rejects a zero byte count with
InvalidArgument, and with a buffer attached it performs exactly one free —
of that old buffer, before the fresh allocation — and then attaches the
fresh block. -/
theorem dyn_alloc_realloc (oracle : Nat → Option Nat) (st : ArenaState)
    (bc p : Nat) :
    (dyn_arena_alloc oracle st 0 = ⟨st, [], some .invalidArgument⟩) ∧
    (bc ≠ 0 → has_buf st = true → oracle bc = some p → p ≠ 0 →
      dyn_arena_alloc oracle st bc =
        ⟨⟨p, bc, p⟩, [.freed st.m_buf, .allocated p bc], none⟩) := by
  refine ⟨by simp [dyn_arena_alloc], fun hbc hbuf hor hp => ?_⟩
  unfold dyn_arena_alloc
  simp [hbc, hbuf, hor, set_buf, hp]

theorem dyn_alloc_realloc_witness :
    dyn_arena_alloc (fun n => some (100 * n)) ⟨3200, 32, 3200⟩ 64 =
      ⟨⟨6400, 64, 6400⟩, [.freed 3200, .allocated 6400 64], none⟩ :=
  (dyn_alloc_realloc (fun n => some (100 * n)) ⟨3200, 32, 3200⟩ 64 6400).2
    (by decide) (by decide) rfl (by decide)

/-- C10: when the fresh heap allocation fails, `dynamic_arena::alloc` has
already freed the old buffer, yet the arena still advertises it: the
descriptor and cursor are unchanged, `has_buf()` is still true and
`get_buf()` still hands out the freed block. -/
theorem dyn_alloc_failure_not_atomic (oracle : Nat → Option Nat)
    (st : ArenaState) (bc : Nat) (hbc : bc ≠ 0) (hbuf : has_buf st = true)
    (hfail : oracle bc = none) :
    dyn_arena_alloc oracle st bc =
      ⟨st, [.freed st.m_buf], some .allocationFailure⟩ ∧
    has_buf st = true ∧ get_buf st = (st.m_buf, st.m_size) := by
  refine ⟨?_, hbuf, rfl⟩
  unfold dyn_arena_alloc
  simp [hbc, hbuf, hfail]

theorem dyn_alloc_failure_not_atomic_witness :
    dyn_arena_alloc (fun _ => none) ⟨3200, 32, 3200⟩ 64 =
      ⟨⟨3200, 32, 3200⟩, [.freed 3200], some .allocationFailure⟩ ∧
    has_buf ⟨3200, 32, 3200⟩ = true ∧
    get_buf ⟨3200, 32, 3200⟩ = (3200, 32) :=
  dyn_alloc_failure_not_atomic (fun _ => none) ⟨3200, 32, 3200⟩ 64
    (by decide) (by decide) rfl

end scoped_alloc

namespace scoped_alloc

/-- C5: with the attached buffer starting at a multiple of the alignment
and the heap primitive honoring the alignment, the cursor's offset from
the buffer start stays a multiple of the alignment across `allocate`,
`deallocate` and `reset`, and every pointer `allocate` hands out (bump or
fallback) is a multiple of the alignment. -/
theorem alignment_invariant (k : Nat) (oracle : Nat → Option Nat)
    (st : ArenaState) (hk : k ≤ 64) (hv : valid_state st)
    (hbal : 2 ^ k ∣ st.m_buf)
    (hcal : 2 ^ k ∣ (st.m_cursor - st.m_buf))
    (horacle : ∀ bc q, oracle bc = some q → 2 ^ k ∣ q) :
    (∀ bc out st2, allocate (2 ^ k) oracle st bc = .ok (out, st2) →
      st2.m_buf = st.m_buf ∧ st2.m_size = st.m_size ∧
      2 ^ k ∣ (st2.m_cursor - st2.m_buf) ∧
      (∀ q, out = .fromBuf q ∨ out = .fromHeap q → 2 ^ k ∣ q)) ∧
    (∀ q bc st2, deallocate (2 ^ k) st q bc = .ok st2 →
      st2.m_buf = st.m_buf ∧ st2.m_size = st.m_size ∧
      2 ^ k ∣ (st2.m_cursor - st2.m_buf)) ∧
    (∀ st2, reset st = .ok st2 → 2 ^ k ∣ (st2.m_cursor - st2.m_buf)) := by
  obtain ⟨h1, h2, h3, h4⟩ := hv
  have hdvdc : 2 ^ k ∣ st.m_cursor := by
    have : st.m_cursor = st.m_buf + (st.m_cursor - st.m_buf) := by omega
    rw [this]
    exact Nat.dvd_add hbal hcal
  refine ⟨fun bc out st2 h => ?_, fun q bc st2 h => ?_, fun st2 h => ?_⟩
  · rw [allocate, detect_outlive_ok st ⟨h1, h2, h3, h4⟩,
      get_buf_ex_ok st ⟨h1, h2, h3, h4⟩] at h
    dsimp at h
    by_cases hbc0 : bc = 0
    · rw [if_pos hbc0] at h
      obtain ⟨rfl, rfl⟩ : AllocOut.nullPtr = out ∧ st = st2 := by
        have := Except.ok.inj h
        exact ⟨congrArg Prod.fst this, congrArg Prod.snd this⟩
      exact ⟨rfl, rfl, hcal, fun q hq => by rcases hq with hq | hq <;> cases hq⟩
    · rw [if_neg hbc0] at h
      by_cases hfit : aligned_size (2 ^ k) bc ≤
          st.m_buf + st.m_size - st.m_cursor
      · rw [if_pos hfit] at h
        obtain ⟨rfl, rfl⟩ :
            AllocOut.fromBuf st.m_cursor = out ∧
              ({ st with m_cursor :=
                  st.m_cursor + aligned_size (2 ^ k) bc } : ArenaState) = st2 := by
          have := Except.ok.inj h
          exact ⟨congrArg Prod.fst this, congrArg Prod.snd this⟩
        refine ⟨rfl, rfl, ?_, ?_⟩
        · dsimp
          have heq : st.m_cursor + aligned_size (2 ^ k) bc - st.m_buf =
              (st.m_cursor - st.m_buf) + aligned_size (2 ^ k) bc := by omega
          rw [heq]
          exact Nat.dvd_add hcal (aligned_size_dvd k bc hk)
        · intro q hq
          rcases hq with hq | hq
          · cases hq
            exact hdvdc
          · cases hq
      · rw [if_neg hfit] at h
        cases ho : oracle bc with
        | none => rw [ho] at h; cases h
        | some q0 =>
          rw [ho] at h
          obtain ⟨rfl, rfl⟩ : AllocOut.fromHeap q0 = out ∧ st = st2 := by
            have := Except.ok.inj h
            exact ⟨congrArg Prod.fst this, congrArg Prod.snd this⟩
          refine ⟨rfl, rfl, hcal, fun q hq => ?_⟩
          rcases hq with hq | hq
          · cases hq
          · cases hq
            exact horacle bc _ ho
  · rw [deallocate, detect_outlive_ok st ⟨h1, h2, h3, h4⟩, in_buf,
      get_buf_ex_ok st ⟨h1, h2, h3, h4⟩] at h
    dsimp at h
    by_cases hq1 : st.m_buf ≤ q
    · by_cases hq2 : q ≤ st.m_buf + st.m_size
      · by_cases htop : q + aligned_size (2 ^ k) bc = st.m_cursor
        · simp [hq1, hq2, htop] at h
          subst h
          refine ⟨rfl, rfl, ?_⟩
          dsimp
          have heq : q - st.m_buf =
              (st.m_cursor - st.m_buf) - aligned_size (2 ^ k) bc := by omega
          rw [heq]
          exact Nat.dvd_sub' hcal (aligned_size_dvd k bc hk)
        · simp [hq1, hq2, htop] at h
          subst h
          exact ⟨rfl, rfl, hcal⟩
      · simp [hq1, hq2] at h
        subst h
        exact ⟨rfl, rfl, hcal⟩
    · simp [hq1] at h
      subst h
      exact ⟨rfl, rfl, hcal⟩
  · rw [reset, get_buf_ex_ok st ⟨h1, h2, h3, h4⟩] at h
    cases Except.ok.inj h
    dsimp
    simp

end scoped_alloc

namespace scoped_alloc

theorem alignment_invariant_witness :
    2 ^ 3 ∣ ((⟨8, 64, 40⟩ : ArenaState).m_cursor -
      (⟨8, 64, 40⟩ : ArenaState).m_buf) ∧ (2 : Nat) ^ 3 ∣ 24 := by
  have h := (alignment_invariant 3 (fun _ => some 1024) ⟨8, 64, 24⟩
    (by decide) (by decide) (by decide) (by decide)
    (fun bc q hq => by cases hq; decide)).1 10 (.fromBuf 24) ⟨8, 64, 40⟩ rfl
  exact ⟨h.2.2.1, h.2.2.2 24 (Or.inl rfl)⟩

/-- Insertions below capacity touch no allocator at all. -/
theorem vec_push_n_no_alloc (Alignment s : Nat) (oracle : Nat → Option Nat) :
    ∀ (m : Nat) (st : ArenaState) (v : VecState), v.len + m ≤ v.cap →
    vec_push_n Alignment s oracle st v m = .ok (st, ⟨v.cap, v.len + m⟩, []) := by
  intro m
  induction m with
  | zero =>
    intro st v h
    simp [vec_push_n]
  | succ n ih =>
    intro st v h
    rw [vec_push_n, vec_push_back, if_pos (by omega)]
    dsimp
    rw [ih st ⟨v.cap, v.len + 1⟩ (by dsimp; omega)]
    dsimp
    have hlen : v.len + 1 + n = v.len + (n + 1) := by omega
    rw [hlen]

/-- C8: `svobuf<T, N>` construction reserves all `N * sizeof(T)` bytes of
its inline `fixed_arena` in one bump allocation (no heap fallback), ends
with capacity exactly `N ≥ N`, and the first `N` insertions perform no
further allocation — in particular they never reach the fallback path. -/
theorem svobuf_reserve_inline (k s N b : Nat) (oracle : Nat → Option Nat)
    (hk : k ≤ 64) (hdvd : 2 ^ k ∣ s) (hN : N ≠ 0) (hs : s ≠ 0) (hb : b ≠ 0)
    (hnw : N * s + (2 ^ k - 1) < SIZE_MOD) :
    svobuf_init (2 ^ k) s N b oracle =
      .ok (⟨b, N * s, b + N * s⟩, ⟨N, 0⟩, [.fromBuf b]) ∧
    N ≤ (VecState.mk N 0).cap ∧
    used ⟨b, N * s, b + N * s⟩ = .ok (N * s) ∧
    vec_push_n (2 ^ k) s oracle ⟨b, N * s, b + N * s⟩ ⟨N, 0⟩ N =
      .ok (⟨b, N * s, b + N * s⟩, ⟨N, N⟩, []) := by
  have hNs : N * s ≠ 0 := by
    intro hcontra
    rcases Nat.mul_eq_zero.mp hcontra with h | h
    · exact hN h
    · exact hs h
  have hfixed : fixed_arena_init b (N * s) = .ok ⟨b, N * s, b⟩ := by
    simp [fixed_arena_init, set_buf, hb, hNs]
  have hv : valid_state ⟨b, N * s, b⟩ := by
    unfold valid_state
    dsimp
    exact ⟨hb, hNs, Nat.le_refl b, by omega⟩
  have hal : aligned_size (2 ^ k) (N * s) = N * s :=
    aligned_size_of_dvd k (N * s) hk (Dvd.dvd.mul_left hdvd N) hnw
  have halloc : allocate (2 ^ k) oracle ⟨b, N * s, b⟩ (N * s) =
      .ok (.fromBuf b, ⟨b, N * s, b + N * s⟩) := by
    have hstep := allocate_bump (2 ^ k) oracle ⟨b, N * s, b⟩ (N * s) hv hNs
      (by dsimp; rw [hal]; omega)
    rw [hal] at hstep
    exact hstep
  have hreserve : vec_reserve (2 ^ k) s oracle ⟨b, N * s, b⟩ ⟨0, 0⟩ N =
      .ok (⟨b, N * s, b + N * s⟩, ⟨N, 0⟩, [.fromBuf b]) := by
    rw [vec_reserve, if_neg (by dsimp; omega), allocator_allocate, halloc]
  have hv2 : valid_state ⟨b, N * s, b + N * s⟩ := by
    unfold valid_state
    dsimp
    exact ⟨hb, hNs, by omega, by omega⟩
  refine ⟨?_, Nat.le_refl N, ?_, ?_⟩
  · rw [svobuf_init, hfixed]
    dsimp
    rw [hreserve]
    dsimp
    rw [if_neg (show ¬ N < (VecState.mk N 0).cap by dsimp; omega)]
  · simp [used, get_buf_ex_ok _ hv2]
  · have hpush := vec_push_n_no_alloc (2 ^ k) s oracle N
      ⟨b, N * s, b + N * s⟩ ⟨N, 0⟩ (by dsimp; omega)
    simpa using hpush

theorem svobuf_reserve_inline_witness :
    svobuf_init (2 ^ 2) 4 3 4 (fun _ => some 4096) =
      .ok (⟨4, 3 * 4, 4 + 3 * 4⟩, ⟨3, 0⟩, [.fromBuf 4]) ∧
    3 ≤ (VecState.mk 3 0).cap ∧
    used ⟨4, 3 * 4, 4 + 3 * 4⟩ = .ok (3 * 4) ∧
    vec_push_n (2 ^ 2) 4 (fun _ => some 4096) ⟨4, 3 * 4, 4 + 3 * 4⟩ ⟨3, 0⟩ 3 =
      .ok (⟨4, 3 * 4, 4 + 3 * 4⟩, ⟨3, 3⟩, []) :=
  svobuf_reserve_inline 2 4 3 4 (fun _ => some 4096)
    (by decide) (by decide) (by decide) (by decide) (by decide) (by decide)

end scoped_alloc

namespace scoped_alloc

/-- C9 (amended): `aligned_size` computes in `size_t` arithmetic — the
wrapped sum with the low bits cleared equals division rounding; it is the
least multiple of the alignment `≥ byte_count` exactly when
`byte_count ≤ SIZE_MAX - (Alignment - 1)`, and wraps below `byte_count`
beyond that.  For `Alignment ≥ 2`, `aligned_size(SIZE_MAX) = 0`, so
`allocate(SIZE_MAX)` on an attached arena returns the current cursor
(non-null) with the state unchanged, instead of failing or falling back;
for `Alignment = 1` the size does not wrap (see the counterexample). -/
theorem aligned_size_mod_behavior (k b : Nat) (hk : k ≤ 63)
    (hb : b ≤ SIZE_MAX) :
    (aligned_size (2 ^ k) b =
      ((b + (2 ^ k - 1)) % SIZE_MOD) / 2 ^ k * 2 ^ k) ∧
    (is_least_multiple_ge (2 ^ k) b (aligned_size (2 ^ k) b) ↔
      b ≤ SIZE_MAX - (2 ^ k - 1)) ∧
    (SIZE_MAX - (2 ^ k - 1) < b → aligned_size (2 ^ k) b < b) ∧
    (1 ≤ k → aligned_size (2 ^ k) SIZE_MAX = 0) ∧
    (1 ≤ k → ∀ (oracle : Nat → Option Nat) (st : ArenaState),
      valid_state st →
      allocate (2 ^ k) oracle st SIZE_MAX = .ok (.fromBuf st.m_cursor, st) ∧
      st.m_cursor ≠ 0) := by
  have hk64 : k ≤ 64 := by omega
  have hA1 : 0 < 2 ^ k := by positivity
  have hA2 : 2 ^ k ≤ 2 ^ 63 := Nat.pow_le_pow_right (by norm_num) hk
  have hn63 : (2 : Nat) ^ 63 = 9223372036854775808 := by norm_num
  have hn64 : (2 : Nat) ^ 64 = 18446744073709551616 := by norm_num
  have hMOD : SIZE_MOD = 2 ^ 64 := rfl
  have hMAX : SIZE_MAX = 2 ^ 64 - 1 := rfl
  -- beyond the threshold the rounded size collapses to zero
  have hcollapse : ∀ x, x ≤ SIZE_MAX → SIZE_MAX - (2 ^ k - 1) < x →
      aligned_size (2 ^ k) x = 0 := by
    intro x hx hgt
    have hwrap : SIZE_MOD ≤ x + (2 ^ k - 1) := by omega
    have hlt : x + (2 ^ k - 1) - SIZE_MOD < SIZE_MOD := by omega
    have hmod : (x + (2 ^ k - 1)) % SIZE_MOD =
        x + (2 ^ k - 1) - SIZE_MOD := by
      rw [Nat.mod_eq_sub_mod hwrap, Nat.mod_eq_of_lt hlt]
    rw [aligned_size_eq_div_mul k x hk64, hmod,
      Nat.div_eq_of_lt (by omega), Nat.zero_mul]
  refine ⟨aligned_size_eq_div_mul k b hk64, ?_, ?_, ?_, ?_⟩
  · constructor
    · intro hleast
      by_contra hgt
      push_neg at hgt
      have h0 := hcollapse b hb hgt
      have hb0 : b ≤ 0 := h0 ▸ hleast.2.1
      omega
    · intro hble
      have hnw : b + (2 ^ k - 1) < SIZE_MOD := by omega
      refine ⟨aligned_size_dvd k b hk64,
        le_aligned_size_of_no_wrap k b hk64 hnw, ?_⟩
      intro m2 hdvd hm2
      obtain ⟨t, rfl⟩ := hdvd
      rw [aligned_size_of_no_wrap k b hk64 hnw]
      have hdivle : (b + (2 ^ k - 1)) / 2 ^ k ≤ t := by
        have hle : b + (2 ^ k - 1) ≤ 2 ^ k * t + (2 ^ k - 1) := by omega
        have hrhs : (2 ^ k * t + (2 ^ k - 1)) / 2 ^ k = t := by
          rw [Nat.mul_add_div hA1, Nat.div_eq_of_lt (by omega), Nat.add_zero]
        have h5 := Nat.div_le_div_right (c := 2 ^ k) hle
        rwa [hrhs] at h5
      calc (b + (2 ^ k - 1)) / 2 ^ k * 2 ^ k
          ≤ t * 2 ^ k := Nat.mul_le_mul_right _ hdivle
        _ = 2 ^ k * t := Nat.mul_comm _ _
  · intro hgt
    rw [hcollapse b hb hgt]
    omega
  · intro hk1
    apply hcollapse SIZE_MAX (Nat.le_refl _)
    have : (2 : Nat) ^ 1 ≤ 2 ^ k := Nat.pow_le_pow_right (by norm_num) hk1
    omega
  · intro hk1 oracle st hv
    have h0 : aligned_size (2 ^ k) SIZE_MAX = 0 := by
      apply hcollapse SIZE_MAX (Nat.le_refl _)
      have : (2 : Nat) ^ 1 ≤ 2 ^ k := Nat.pow_le_pow_right (by norm_num) hk1
      omega
    obtain ⟨h1, h2, h3, h4⟩ := hv
    have hcne : st.m_cursor ≠ 0 := by omega
    refine ⟨?_, hcne⟩
    rw [allocate, detect_outlive_ok st ⟨h1, h2, h3, h4⟩,
      get_buf_ex_ok st ⟨h1, h2, h3, h4⟩]
    dsimp
    rw [if_neg (show ¬ SIZE_MAX = 0 by decide), if_pos (by
      rw [h0]; exact Nat.zero_le _)]
    rw [h0, Nat.add_zero]

/-- C9 counterexample: at `Alignment = 1` (a valid power-of-two alignment)
`aligned_size(SIZE_MAX)` is `SIZE_MAX`, not 0, and `allocate(SIZE_MAX)`
takes the fallback path rather than returning the cursor. -/
theorem aligned_size_no_wrap_at_alignment_one :
    aligned_size 1 SIZE_MAX = SIZE_MAX ∧ SIZE_MAX ≠ 0 ∧
    allocate 1 (fun _ => some 256) ⟨16, 16, 32⟩ SIZE_MAX =
      .ok (.fromHeap 256, ⟨16, 16, 32⟩) := by
  refine ⟨by decide, by decide, rfl⟩

theorem aligned_size_mod_behavior_witness :
    aligned_size (2 ^ 3) SIZE_MAX = 0 ∧
    allocate (2 ^ 3) (fun _ => none) ⟨8, 64, 24⟩ SIZE_MAX =
      .ok (.fromBuf 24, ⟨8, 64, 24⟩) :=
  ⟨(aligned_size_mod_behavior 3 SIZE_MAX (by norm_num)
      (Nat.le_refl _)).2.2.2.1 (by norm_num),
   ((aligned_size_mod_behavior 3 SIZE_MAX (by norm_num)
      (Nat.le_refl _)).2.2.2.2 (by norm_num) (fun _ => none) ⟨8, 64, 24⟩
      (by decide)).1⟩

end scoped_alloc

namespace scoped_alloc

theorem deallocate_lifo_witness :
    deallocate 8 ⟨8, 64, 40⟩ 24 10 = .ok ⟨8, 64, 24⟩ ∧
    used ⟨8, 64, 24⟩ = .ok 16 := by
  have h := (deallocate_lifo 8 ⟨8, 64, 24⟩ (by decide)).2.2 (fun _ => none) 10
    (by decide) (by decide)
  exact ⟨h.2.1, h.2.2⟩

end scoped_alloc
